import Mathlib

/-!
Verification development for the regression notebook `FittingExercise.ipynb`.

The embedding below translates, from the notebook source:
  * the experiment records (`ExperimentData`, the three literal experiments);
  * the concentration model `func` (cell 9);
  * the residual assembler `leastsqfunc` (cell 9) together with the way the
    notebook packs its `arguments` tuple (`residualsCode`);
  * the covariance post-processing and the error loop of cell 10;
  * the integer-rounded published records of cell 10.

Machine floats are modelled by `ℝ`; a numpy operation that raises (an
out-of-range index, a shape mismatch, subscripting a `None` covariance) is
modelled by `Option`, with `none` for the raised exception.  Python `round`
(round half to even) is modelled by `pyRound`.
-/

namespace Regression

noncomputable section

open Real

/-- Record for one experiment, from
the namedtuple `ExperimentData` with fields `T`, `cA_start`, `times`, `cA`
(cell 4).  The numpy arrays `times` and `cA` become lists of reals. -/
structure ExperimentData where
  T : ℝ
  cA_start : ℝ
  times : List ℝ
  cA : List ℝ

/-- First experiment literal of cell 6 (T=298.15). -/
def exp1 : ExperimentData :=
  ⟨298.15, 10.0, [10, 20, 30, 40, 50, 60, 70, 80, 90, 100],
   [8.649, 7.441, 7.141, 6.366, 6.215, 5.990, 5.852, 5.615, 5.481, 5.644]⟩

/-- Second experiment literal of cell 6 (T=308.15). -/
def exp2 : ExperimentData :=
  ⟨308.15, 10.0, [10, 20, 30, 40, 50, 60, 70, 80, 90, 100],
   [7.230, 6.073, 5.452, 5.317, 5.121, 4.998, 4.951, 4.978, 5.015, 5.036]⟩

/-- Third experiment literal of cell 6 (T=323.15). -/
def exp3 : ExperimentData :=
  ⟨323.15, 10.0, [10, 20, 30, 40, 50, 60, 70, 80, 90, 100],
   [5.137, 4.568, 4.548, 4.461, 4.382, 4.525, 4.483, 4.565, 4.459, 4.635]⟩

/-- The list `experiments` of cell 6. -/
def experiments : List ExperimentData := [exp1, exp2, exp3]

/-- Concentration model `func` of cell 9, transcribed term by term:
`R = 8.314`, `C_1 = C_0 - C_0/(exp((dH - T*dS)/(R*T))+1)`,
`x = C_0/(exp((dH - T*dS)/(R*T))+1)`,
`exponential = exp(t * 10**logA * exp(-E_a/(R*T)) * (-1) * (1 + 1/exp((dH-T*dS)/(R*T))))`,
returning `x + C_1 * exponential`.  Python `10**logA` on floats is real
exponentiation, hence `rpow`. -/
def func (t C_0 T logA E_a dH dS : ℝ) : ℝ :=
  let R : ℝ := 8.314
  let C_1 := C_0 - C_0 / (exp ((dH - T * dS) / (R * T)) + 1)
  let x := C_0 / (exp ((dH - T * dS) / (R * T)) + 1)
  let exponential :=
    exp (t * (10 : ℝ) ^ logA * exp (-E_a / (R * T)) * (-1) *
      (1 + 1 / exp ((dH - T * dS) / (R * T))))
  x + C_1 * exponential

/-- Reference model written exactly as claim C1 states it:
`Kc = exp(-(dH - T*dS)/(R*T))`, `C_A_eq = C0/(Kc+1)`,
`kf = 10^logA * exp(-Ea/(R*T))`, `k_total = kf*(1 + 1/Kc)`,
prediction `C_A_eq + (C0 - C_A_eq) * exp(-k_total*t)`. -/
def specPredict (t C_0 T logA E_a dH dS : ℝ) : ℝ :=
  let R : ℝ := 8.314
  let Kc := exp (-(dH - T * dS) / (R * T))
  let C_A_eq := C_0 / (Kc + 1)
  let kf := (10 : ℝ) ^ logA * exp (-E_a / (R * T))
  let k_total := kf * (1 + 1 / Kc)
  C_A_eq + (C_0 - C_A_eq) * exp (-(k_total * t))

/-- Reference model in the same shape as `specPredict` but with the sign of
the equilibrium exponent as the code actually has it:
`Kc = exp(+(dH - T*dS)/(R*T))`.  This is the amended form of claim C1. -/
def predictRef (t C_0 T logA E_a dH dS : ℝ) : ℝ :=
  let R : ℝ := 8.314
  let Kc := exp ((dH - T * dS) / (R * T))
  let C_A_eq := C_0 / (Kc + 1)
  let kf := (10 : ℝ) ^ logA * exp (-E_a / (R * T))
  let k_total := kf * (1 + 1 / Kc)
  C_A_eq + (C_0 - C_A_eq) * exp (-(k_total * t))

/-- Equilibrium term of `func`: the summand `x = C_0/(exp((dH-T*dS)/(R*T))+1)`,
which is the value `func` decays toward. -/
def funcEq (C_0 T dH dS : ℝ) : ℝ :=
  C_0 / (exp ((dH - T * dS) / (8.314 * T)) + 1)

/-- Relaxation rate constant of `func`: the factor multiplying `-t` inside
the exponential, `10^logA * exp(-E_a/(R*T)) * (1 + 1/exp((dH-T*dS)/(R*T)))`. -/
def kTotal (T logA E_a dH dS : ℝ) : ℝ :=
  (10 : ℝ) ^ logA * exp (-E_a / (8.314 * T)) *
    (1 + 1 / exp ((dH - T * dS) / (8.314 * T)))

/-- Module constant `n1 = 10` of cell 9. -/
def n1 : ℕ := 10

/-- Module constant `n2 = 20` of cell 9. -/
def n2 : ℕ := 20

/-- Residual assembler `leastsqfunc` of cell 9.  The Python function unpacks
`parameters[0..3]`, reads `arguments[0..3]` (the combined time array, the
combined concentration array, the `C_0` tuple and the `T` tuple) and never
reads `arguments[4]` (the slice-boundary tuple, the unused `slices` argument
here).  It fills `C_A_fit[:n1]`, `C_A_fit[n1:n2]`, `C_A_fit[n2:]` with
predictions using `C_0[0..2]` and `T[0..2]` and returns `C_A - C_A_fit`.
An out-of-range tuple index (fewer than three experiments) raises in Python
and is `none` here; a length mismatch between `C_A` and `C_A_fit` raises a
broadcast error and is also `none` (the degenerate numpy broadcast of a
length-one operand is not modelled; no claim exercises it). -/
def leastsqfunc (parameters : Fin 4 → ℝ)
    (tcombined C_A C_0 T : List ℝ) (slices : ℕ × ℕ) : Option (List ℝ) :=
  (C_0.get? 0).bind fun c00 =>
  (C_0.get? 1).bind fun c01 =>
  (C_0.get? 2).bind fun c02 =>
  (T.get? 0).bind fun T0 =>
  (T.get? 1).bind fun T1 =>
  (T.get? 2).bind fun T2 =>
  let logA := parameters 0
  let E_a := parameters 1
  let dH := parameters 2
  let dS := parameters 3
  let C_A_fit : List ℝ :=
    (tcombined.take n1).map (fun t => func t c00 T0 logA E_a dH dS)
    ++ ((tcombined.drop n1).take (n2 - n1)).map (fun t => func t c01 T1 logA E_a dH dS)
    ++ (tcombined.drop n2).map (fun t => func t c02 T2 logA E_a dH dS)
  if C_A.length = C_A_fit.length then
    some (List.zipWith (fun a b => a - b) C_A C_A_fit)
  else none

/-- Residual assembler applied to a list of experiments, packing the
arguments exactly as cell 9 does for the literal data:
`tcombined` is the concatenation of the time arrays, `C_A` the concatenation
of the concentration arrays, `C_0 = (10, 10, 10)` is the tuple of starting
concentrations, `T = (298.15, 308.15, 323.15)` the tuple of temperatures,
and the final tuple is `(n1, n1+n2)`. -/
def residualsCode (params : Fin 4 → ℝ) (exps : List ExperimentData) :
    Option (List ℝ) :=
  leastsqfunc params
    ((exps.map ExperimentData.times).flatten)
    ((exps.map ExperimentData.cA).flatten)
    (exps.map ExperimentData.cA_start)
    (exps.map ExperimentData.T)
    (n1, n1 + n2)

/-- Residual vector as the specification describes it: for each experiment in
order, observed concentration minus the model prediction at the matching
time, observation order preserved, experiments concatenated in input order. -/
def residualsSpec (params : Fin 4 → ℝ) (exps : List ExperimentData) : List ℝ :=
  (exps.map (fun e =>
    List.zipWith
      (fun c t => c - func t e.cA_start e.T (params 0) (params 1) (params 2) (params 3))
      e.cA e.times)).flatten

/-- Experiment used to refute the universally quantified residual-length
claim: a single well-formed experiment with two observations. -/
def expSingle : ExperimentData := ⟨300, 10, [1, 2], [5, 6]⟩

/-- Covariance consumed by cell 10: the code takes `cov` from
`scipy.optimize.leastsq(..., full_output=1)` and feeds it unchanged into
`np.sqrt(np.diag(cov))`; no transformation is applied in the repository.
SciPy documents this `cov_x` output as the unscaled `(JᵀJ)⁻¹`, to be
multiplied by the residual variance to obtain the parameter covariance. -/
def covConsumed (cov_x : Matrix (Fin 4) (Fin 4) ℝ) : Matrix (Fin 4) (Fin 4) ℝ :=
  cov_x

/-- Covariance as claim C4 states it: `cov_x` scaled by the residual
variance `SSR / (n_obs - n_params)` with `n_params = 4`. -/
def covClaimed (ssr : ℝ) (nobs : ℕ) (cov_x : Matrix (Fin 4) (Fin 4) ℝ) :
    Matrix (Fin 4) (Fin 4) ℝ :=
  (ssr / ((nobs : ℝ) - 4)) • cov_x

/-- Model of `np.sqrt` on one entry: NaN (no numeric value, `none`) on a
negative input, the real square root otherwise. -/
def npSqrt (x : ℝ) : Option ℝ :=
  if 0 ≤ x then some (Real.sqrt x) else none

/-- Entry `i` of `stderr = np.sqrt(np.diag(cov))` from cell 10. -/
def stderrDiag (cov : Matrix (Fin 4) (Fin 4) ℝ) : Fin 4 → Option ℝ :=
  fun i => npSqrt (cov i i)

/-- Error loop of cell 10 as a construct: for each parameter index, `try`
appending `np.absolute(cov[i][i])**0.5`, `except` appending the placeholder
`0.00`.  With a matrix covariance the body never raises (inf and NaN
propagate without exception), so the loop yields `sqrt |cov i i|` and the
except branch is dead code; the `none` branch records what that except
branch would append.  In the program the loop is never actually reached
with a `None` covariance, because cell 10 aborts earlier — see
`cell10Run`. -/
def errorLoop (cov : Option (Matrix (Fin 4) (Fin 4) ℝ)) : Fin 4 → ℝ :=
  fun i =>
    match cov with
    | some c => Real.sqrt |c i i|
    | none => 0.00

/-- Concrete covariance with a negative diagonal entry, used to exercise the
negative-diagonal behavior of the uncertainty estimator. -/
def covNeg : Matrix (Fin 4) (Fin 4) ℝ := Matrix.diagonal ![-4, 1, 1, 1]

/-- Outcome of executing cell 10 on the covariance returned by `leastsq`:
either the cell completes with the `stderr` entries (NaN as `none`) and the
error-loop entries, or it aborts with an unhandled `ValueError`.  The
program defines no further outcome; in particular no DegenerateFit
condition is reported anywhere. -/
inductive Cell10Outcome where
  | values : (Fin 4 → Option ℝ) → (Fin 4 → ℝ) → Cell10Outcome
  | valueError : Cell10Outcome

/-- Cell 10 in statement order.  Its first statement
`stderr = np.sqrt(np.diag(cov))` raises `ValueError` when `cov` is `None`
(`np.diag` rejects the 0-d input), aborting the cell before the error loop
runs; with a matrix covariance the cell completes, the loop body never
raising, and yields the `stderr` entries together with the loop entries
`sqrt |cov i i|`. -/
def cell10Run (cov : Option (Matrix (Fin 4) (Fin 4) ℝ)) : Cell10Outcome :=
  match cov with
  | none => Cell10Outcome.valueError
  | some c => Cell10Outcome.values (stderrDiag c) (errorLoop (some c))

/-- Python 3 `round`: round half to even, returning an integer. -/
def pyRound (x : ℝ) : ℤ :=
  if Int.fract x = 1 / 2 then
    (if Even ⌊x⌋ then ⌊x⌋ else ⌊x⌋ + 1)
  else round x

/-- Named 4-tuple `ParameterSet` of cell 7. -/
structure ParameterSet where
  logA : ℝ
  Ea : ℝ
  dH : ℝ
  dS : ℝ

/-- Published record of cell 10:
`optimized_parameters = ParameterSet(round(result[0]), round(result[1]/1000),
round(result[2]/1000), round(result[3]))`. -/
def optimizedParameters (result : Fin 4 → ℝ) : ParameterSet :=
  ⟨(pyRound (result 0) : ℤ), (pyRound (result 1 / 1000) : ℤ),
   (pyRound (result 2 / 1000) : ℤ), (pyRound (result 3) : ℤ)⟩

/-- Published record of cell 10:
`standard_errors = ParameterSet(round(stderr[0]), round(stderr[1]/1000),
round(stderr[2]/1000), round(stderr[3]))`. -/
def standardErrorsRecord (stderr : Fin 4 → ℝ) : ParameterSet :=
  ⟨(pyRound (stderr 0) : ℤ), (pyRound (stderr 1 / 1000) : ℤ),
   (pyRound (stderr 2 / 1000) : ℤ), (pyRound (stderr 3) : ℤ)⟩

/-- Value is an integer-valued real. -/
def IsWhole (x : ℝ) : Prop := ∃ k : ℤ, x = (k : ℝ)

end

open Real

/-- C8: every `ExperimentData` record the program constructs (the three
literals of cell 6) satisfies `len(times) == len(concentrations)`; the
records are constants of the program, never written to after construction. -/
theorem experiments_length_invariant :
    ∀ e ∈ experiments, e.times.length = e.cA.length := by
  intro e he
  simp only [experiments, List.mem_cons, List.mem_singleton, List.not_mem_nil,
    or_false] at he
  rcases he with h | h | h <;> subst h <;> rfl

/-- Witness for C8 at the first experiment record. -/
theorem experiments_length_invariant_witness :
    exp1 ∈ experiments ∧ exp1.times.length = exp1.cA.length :=
  ⟨by simp [experiments], experiments_length_invariant exp1 (by simp [experiments])⟩

/-- C7: the residual assembler is deterministic and side-effect-free — the
embedding is a pure function, the only module-level state it reads are the
constants `n1` and `n2`, and two invocations on identical parameter vectors
and identical experiment data return identical residual vectors. -/
theorem leastsqfunc_deterministic (p q : Fin 4 → ℝ)
    (tc tc2 ca ca2 c0 c02 T T2 : List ℝ) (s s2 : ℕ × ℕ)
    (hp : p = q) (htc : tc = tc2) (hca : ca = ca2) (hc0 : c0 = c02)
    (hT : T = T2) (hs : s = s2) :
    leastsqfunc p tc ca c0 T s = leastsqfunc q tc2 ca2 c02 T2 s2 ∧
    ∀ es es2 : List ExperimentData, es = es2 →
      residualsCode p es = residualsCode q es2 := by
  subst hp; subst htc; subst hca; subst hc0; subst hT; subst hs
  exact ⟨rfl, fun es es2 h => by subst h; rfl⟩

/-- Witness for C7 at concrete identical inputs. -/
theorem leastsqfunc_deterministic_witness :
    leastsqfunc (fun _ => 0) [] [] [] [] (0, 0) =
      leastsqfunc (fun _ => 0) [] [] [] [] (0, 0) ∧
    ∀ es es2 : List ExperimentData, es = es2 →
      residualsCode (fun _ => 0) es = residualsCode (fun _ => 0) es2 :=
  leastsqfunc_deterministic (fun _ => 0) (fun _ => 0) [] [] [] [] [] [] [] []
    (0, 0) (0, 0) rfl rfl rfl rfl rfl rfl

/-- C10: the published `optimized_parameters` and `standard_errors` records
of cell 10 are exactly the integer roundings of the raw solver output —
`logA` and `dS` entries are `round(raw)`, `Ea` and `dH` entries are
`round(raw/1000)` — hence every published entry is a whole number. -/
theorem published_records_rounded (result stderr : Fin 4 → ℝ) :
    (optimizedParameters result).logA = (pyRound (result 0) : ℝ) ∧
    (optimizedParameters result).Ea = (pyRound (result 1 / 1000) : ℝ) ∧
    (optimizedParameters result).dH = (pyRound (result 2 / 1000) : ℝ) ∧
    (optimizedParameters result).dS = (pyRound (result 3) : ℝ) ∧
    (standardErrorsRecord stderr).logA = (pyRound (stderr 0) : ℝ) ∧
    (standardErrorsRecord stderr).Ea = (pyRound (stderr 1 / 1000) : ℝ) ∧
    (standardErrorsRecord stderr).dH = (pyRound (stderr 2 / 1000) : ℝ) ∧
    (standardErrorsRecord stderr).dS = (pyRound (stderr 3) : ℝ) ∧
    IsWhole (optimizedParameters result).logA ∧
    IsWhole (optimizedParameters result).Ea ∧
    IsWhole (optimizedParameters result).dH ∧
    IsWhole (optimizedParameters result).dS ∧
    IsWhole (standardErrorsRecord stderr).logA ∧
    IsWhole (standardErrorsRecord stderr).Ea ∧
    IsWhole (standardErrorsRecord stderr).dH ∧
    IsWhole (standardErrorsRecord stderr).dS := by
  refine ⟨rfl, rfl, rfl, rfl, rfl, rfl, rfl, rfl,
    ?_, ?_, ?_, ?_, ?_, ?_, ?_, ?_⟩ <;> exact ⟨_, rfl⟩

/-- Counterexample for C6: with a singular `JᵀJ` the covariance returned by
`leastsq` is `None` and cell 10 aborts with an unhandled `ValueError` at its
first statement — the run produces no DegenerateFit report (the outcome
type of the program has no such case) and no standard-error values at
all. -/
theorem singular_cov_unhandled_exception :
    cell10Run none = Cell10Outcome.valueError := rfl

/-- Amended C6: on a singular `JᵀJ` (covariance `None`) cell 10 aborts with
the numpy `ValueError` raised by `np.sqrt(np.diag(cov))` before the error
loop runs, an outcome distinct from every completed run — so no covariance
or standard errors, zero placeholders included, are returned on that path
and no DegenerateFit condition is reported; on a matrix covariance the cell
completes with the `stderr` entries and the error-loop entries, the except
branch of the loop being dead code. -/
theorem cell10_singular_aborts (c : Matrix (Fin 4) (Fin 4) ℝ) :
    cell10Run none = Cell10Outcome.valueError ∧
    cell10Run (some c) =
      Cell10Outcome.values (stderrDiag c) (errorLoop (some c)) ∧
    ∀ sd lv, Cell10Outcome.valueError ≠ Cell10Outcome.values sd lv :=
  ⟨rfl, rfl, fun sd lv h => Cell10Outcome.noConfusion h⟩

/-- Amended C5: `stderr = np.sqrt(np.diag(cov))` is the element-wise square
root of the diagonal for non-negative entries and NaN (no value) for
negative entries — not an InvalidCovariance failure — and the error loop
returns `sqrt` of the absolute value of the diagonal entry, a value, for
every covariance. -/
theorem standard_errors_sqrt_abs (cov : Matrix (Fin 4) (Fin 4) ℝ) (i : Fin 4) :
    (0 ≤ cov i i → stderrDiag cov i = some (Real.sqrt (cov i i))) ∧
    (cov i i < 0 → stderrDiag cov i = none) ∧
    errorLoop (some cov) i = Real.sqrt |cov i i| := by
  refine ⟨fun h => ?_, fun h => ?_, rfl⟩
  · simp [stderrDiag, npSqrt, h]
  · simp [stderrDiag, npSqrt, not_le.mpr h]

/-- Witness for the amended C5 at a concrete covariance. -/
theorem standard_errors_sqrt_abs_witness :
    stderrDiag covNeg 1 = some (Real.sqrt (covNeg 1 1)) ∧
    errorLoop (some covNeg) 1 = Real.sqrt |covNeg 1 1| :=
  ⟨(standard_errors_sqrt_abs covNeg 1).1
      (by norm_num [covNeg, Matrix.diagonal_apply_eq, Matrix.cons_val_one,
        Matrix.head_cons]),
   (standard_errors_sqrt_abs covNeg 1).2.2⟩

/-- Counterexample for C5: on a covariance whose first diagonal entry is
`-4`, the error loop returns the value `2` (the square root of the absolute
value) and `np.sqrt` produces NaN; nothing fails with InvalidCovariance. -/
theorem standard_errors_negative_diag_returns_value :
    covNeg 0 0 < 0 ∧ errorLoop (some covNeg) 0 = 2 ∧
    stderrDiag covNeg 0 = none := by
  have h00 : covNeg 0 0 = -4 := by
    simp [covNeg, Matrix.diagonal_apply_eq, Matrix.cons_val_zero]
  refine ⟨by rw [h00]; norm_num, ?_, ?_⟩
  · show Real.sqrt |covNeg 0 0| = 2
    rw [h00, show |(-4 : ℝ)| = 4 by norm_num, show (4 : ℝ) = 2 ^ 2 by norm_num]
    exact Real.sqrt_sq (by norm_num)
  · simp [stderrDiag, npSqrt, h00]

/-- C4 (divergence): the covariance consumed by cell 10 is the raw
`cov_x` of scipy, which differs from the claimed residual-variance-scaled covariance
whenever the residual variance `SSR/(n_obs - 4)` is not `1` and `cov_x` is
not the zero matrix. -/
theorem cov_missing_variance_scale (cov_x : Matrix (Fin 4) (Fin 4) ℝ)
    (ssr : ℝ) (nobs : ℕ)
    (hvar : ssr / ((nobs : ℝ) - 4) ≠ 1) (hx : cov_x ≠ 0) :
    covConsumed cov_x ≠ covClaimed ssr nobs cov_x := by
  intro h
  have h2 : (1 - ssr / ((nobs : ℝ) - 4)) • cov_x = 0 := by
    rw [sub_smul, one_smul]
    nth_rewrite 1 [show cov_x = covClaimed ssr nobs cov_x from h]
    simp [covClaimed]
  rcases smul_eq_zero.mp h2 with h4 | h4
  · exact hvar (by linarith)
  · exact hx h4

/-- Helper: the relaxation rate constant of the code is positive for every
real parameter tuple, since every factor is positive. -/
theorem kTotal_pos (T logA E_a dH dS : ℝ) : 0 < kTotal T logA E_a dH dS := by
  unfold kTotal
  positivity

/-- Helper: `func` in closed relaxation form
`x + (C_0 - x) * exp (-(k_total * t))`. -/
theorem func_closed_form (t C_0 T logA E_a dH dS : ℝ) :
    func t C_0 T logA E_a dH dS =
      funcEq C_0 T dH dS +
        (C_0 - funcEq C_0 T dH dS) * exp (-(kTotal T logA E_a dH dS * t)) := by
  simp only [func, funcEq, kTotal]
  have h : t * (10 : ℝ) ^ logA * exp (-E_a / (8.314 * T)) * (-1) *
      (1 + 1 / exp ((dH - T * dS) / (8.314 * T))) =
      -((10 : ℝ) ^ logA * exp (-E_a / (8.314 * T)) *
        (1 + 1 / exp ((dH - T * dS) / (8.314 * T))) * t) := by
    ring
  rw [h]

/-- Helper: `func` equals the reference shape with the sign of
the equilibrium exponent. -/
theorem func_eq_refForm (t C_0 T logA E_a dH dS : ℝ) :
    func t C_0 T logA E_a dH dS = predictRef t C_0 T logA E_a dH dS := by
  simp only [func, predictRef]
  have h : t * (10 : ℝ) ^ logA * exp (-E_a / (8.314 * T)) * (-1) *
      (1 + 1 / exp ((dH - T * dS) / (8.314 * T))) =
      -((10 : ℝ) ^ logA * exp (-E_a / (8.314 * T)) *
        (1 + 1 / exp ((dH - T * dS) / (8.314 * T))) * t) := by
    ring
  rw [h]

/-- Amended C1: for every input the concentration model `func` equals the
reference relaxation `C_A_eq + (C0 - C_A_eq) * exp(-k_total * t)`, with
`R = 8.314`, `kf = 10^logA * exp(-Ea/(R*T))`, `C_A_eq = C0/(Kc+1)` and
`k_total = kf*(1 + 1/Kc)` — for `Kc = exp(+(dH - T*dS)/(R*T))`, the sign the
code uses, not the sign the claim states. -/
theorem func_eq_predictRef (t C_0 T logA E_a dH dS : ℝ) :
    func t C_0 T logA E_a dH dS = predictRef t C_0 T logA E_a dH dS :=
  func_eq_refForm t C_0 T logA E_a dH dS

/-- C2: for valid inputs (`C0 > 0`, `T > 0`, positive relaxation rate) the
model output starts at `C0` for `t = 0`, stays between the equilibrium value
and `C0` for all `t ≥ 0`, is strictly decreasing in `t` on `[0, ∞)`, and
tends to the equilibrium value as `t → ∞`.  The output is a real number, so
finiteness is automatic in this embedding. -/
theorem func_relaxation (C_0 T logA E_a dH dS : ℝ) (hC : 0 < C_0) (hT : 0 < T)
    (hk : 0 < kTotal T logA E_a dH dS) :
    func 0 C_0 T logA E_a dH dS = C_0 ∧
    (∀ t : ℝ, 0 ≤ t →
      funcEq C_0 T dH dS ≤ func t C_0 T logA E_a dH dS ∧
      func t C_0 T logA E_a dH dS ≤ C_0) ∧
    StrictAntiOn (fun t => func t C_0 T logA E_a dH dS) (Set.Ici 0) ∧
    Filter.Tendsto (fun t => func t C_0 T logA E_a dH dS) Filter.atTop
      (nhds (funcEq C_0 T dH dS)) := by
  set x := funcEq C_0 T dH dS with hx
  set k := kTotal T logA E_a dH dS with hkdef
  have hxlt : x < C_0 := by
    rw [hx, funcEq]
    apply div_lt_self hC
    have := exp_pos ((dH - T * dS) / (8.314 * T))
    linarith
  have hcf : ∀ t : ℝ,
      func t C_0 T logA E_a dH dS = x + (C_0 - x) * exp (-(k * t)) := fun t =>
    func_closed_form t C_0 T logA E_a dH dS
  refine ⟨?_, ?_, ?_, ?_⟩
  · rw [hcf 0]
    simp
  · intro t ht
    rw [hcf t]
    have he1 : exp (-(k * t)) ≤ 1 := by
      rw [show (1 : ℝ) = exp 0 from Real.exp_zero.symm]
      exact exp_le_exp.mpr (by nlinarith)
    have he0 : 0 < exp (-(k * t)) := exp_pos _
    constructor <;> nlinarith
  · intro a _ b _ hab
    simp only
    rw [hcf a, hcf b]
    have hlt : exp (-(k * b)) < exp (-(k * a)) :=
      exp_lt_exp.mpr (by nlinarith)
    nlinarith
  · have h1 : Filter.Tendsto (fun t : ℝ => -(k * t)) Filter.atTop
        Filter.atBot := by
      apply Filter.tendsto_neg_atBot_iff.mpr
      exact Filter.Tendsto.const_mul_atTop hk Filter.tendsto_id
    have h2 : Filter.Tendsto (fun t : ℝ => exp (-(k * t))) Filter.atTop
        (nhds 0) := Real.tendsto_exp_atBot.comp h1
    have h3 := (h2.const_mul (C_0 - x)).const_add x
    simp only [mul_zero, add_zero] at h3
    have h4 : (fun t => func t C_0 T logA E_a dH dS) =
        fun t => x + (C_0 - x) * exp (-(k * t)) := funext hcf
    rw [h4]
    exact h3

/-- Witness for C2 at `C0 = 1`, `T = 1`, parameters all zero (rate `2`). -/
theorem func_relaxation_witness :
    (0 : ℝ) < 1 ∧ 0 < kTotal 1 0 0 0 0 ∧
    (func 0 1 1 0 0 0 0 = 1 ∧
     (∀ t : ℝ, 0 ≤ t →
       funcEq 1 1 0 0 ≤ func t 1 1 0 0 0 0 ∧ func t 1 1 0 0 0 0 ≤ 1) ∧
     StrictAntiOn (fun t => func t 1 1 0 0 0 0) (Set.Ici 0) ∧
     Filter.Tendsto (fun t => func t 1 1 0 0 0 0) Filter.atTop
       (nhds (funcEq 1 1 0 0))) :=
  ⟨by norm_num, kTotal_pos 1 0 0 0 0,
   func_relaxation 1 1 0 0 0 0 (by norm_num) (by norm_num)
     (kTotal_pos 1 0 0 0 0)⟩

/-- Helper: with `Kc` read as `exp 1` on the code side and `exp (-1)` on the
claimed side, the two relaxation values at `t = 1` differ strictly. -/
theorem relaxation_sign_ineq :
    1 / (exp 1 + 1) + (1 - 1 / (exp 1 + 1)) * exp (-(1 + 1 / exp 1)) <
    1 / (exp (-1) + 1) +
      (1 - 1 / (exp (-1) + 1)) * exp (-(1 + 1 / exp (-1))) := by
  have hE0 : (0 : ℝ) < exp 1 := exp_pos 1
  have hEgt : (2.7 : ℝ) < exp 1 := by
    calc (2.7 : ℝ) < 2.7182818283 := by norm_num
    _ < exp 1 := Real.exp_one_gt_d9
  have hEne : exp 1 ≠ 0 := ne_of_gt hE0
  have hinv : exp (-1 : ℝ) = (exp 1)⁻¹ := Real.exp_neg 1
  have hpos : (0 : ℝ) < exp 1 + 1 := by linarith
  have hposne : exp 1 + 1 ≠ 0 := ne_of_gt hpos
  have hinvpos : (0 : ℝ) < (exp 1)⁻¹ + 1 := by positivity
  have hinvne : (exp 1)⁻¹ + 1 ≠ 0 := ne_of_gt hinvpos
  have hA : exp 1 * exp (-(1 + 1 / exp 1)) = exp (-(1 / exp 1)) := by
    rw [← Real.exp_add]
    congr 1
    ring
  have hA1 : exp (-(1 / exp 1)) ≤ 1 := by
    have h00 : (0 : ℝ) < 1 / exp 1 := by positivity
    have h0 : -(1 / exp 1) ≤ 0 := by linarith
    calc exp (-(1 / exp 1)) ≤ exp 0 := exp_le_exp.mpr h0
    _ = 1 := exp_zero
  have hB : 0 < exp (-(1 + exp 1)) := exp_pos _
  have eL : 1 / (exp 1 + 1) + (1 - 1 / (exp 1 + 1)) * exp (-(1 + 1 / exp 1)) =
      (1 + exp 1 * exp (-(1 + 1 / exp 1))) / (exp 1 + 1) := by
    field_simp
  have eR : 1 / (exp (-1) + 1) +
      (1 - 1 / (exp (-1) + 1)) * exp (-(1 + 1 / exp (-1))) =
      (exp 1 + exp (-(1 + exp 1))) / (exp 1 + 1) := by
    rw [hinv, show (1 : ℝ) / (exp 1)⁻¹ = exp 1 by field_simp]
    rw [show (exp 1)⁻¹ + 1 = (exp 1 + 1) / exp 1 by field_simp; ring]
    rw [one_div_div]
    field_simp
  rw [eL, eR, div_lt_div_iff₀ hpos hpos]
  nlinarith [hA, hA1, hB, hEgt]

/-- Counterexample for C1: at `t = 1`, `C0 = 1`, `T = 1` and parameters
`(logA, Ea, dH, dS) = (0, 0, 8.314, 0)` the code model `func` differs from
the reference definition of the claim — the code computes the equilibrium
exponent with the opposite sign. -/
theorem func_ne_specPredict :
    func 1 1 1 0 0 8.314 0 ≠ specPredict 1 1 1 0 0 8.314 0 := by
  have e1 : func 1 1 1 0 0 8.314 0 =
      1 / (exp 1 + 1) + (1 - 1 / (exp 1 + 1)) * exp (-(1 + 1 / exp 1)) := by
    simp only [func]
    norm_num [Real.rpow_zero]
  have e2 : specPredict 1 1 1 0 0 8.314 0 =
      1 / (exp (-1) + 1) +
        (1 - 1 / (exp (-1) + 1)) * exp (-(1 + 1 / exp (-1))) := by
    simp only [specPredict]
    norm_num [Real.rpow_zero]
  rw [e1, e2]
  exact ne_of_lt relaxation_sign_ineq

/-- Witness for C4 at `cov_x = I`, `SSR = 2`, `n_obs = 30` (residual
variance `1/13`). -/
theorem cov_missing_variance_scale_witness :
    (2 : ℝ) / ((30 : ℕ) - 4 : ℝ) ≠ 1 ∧
    (1 : Matrix (Fin 4) (Fin 4) ℝ) ≠ 0 ∧
    covConsumed (1 : Matrix (Fin 4) (Fin 4) ℝ) ≠ covClaimed 2 30 1 :=
  ⟨by norm_num, one_ne_zero,
   cov_missing_variance_scale 1 2 30 (by norm_num) one_ne_zero⟩

/-- Helper: evaluation of `leastsqfunc` when the `C_0` and `T` tuples have
entries at indices 0, 1, 2 and the combined arrays have equal length: the
result is `C_A` minus the predictions, sliced at the fixed boundaries `n1`
and `n2` regardless of the slice-boundary argument. -/
theorem leastsqfunc_eval (p : Fin 4 → ℝ) (tc ca c0 T : List ℝ) (s : ℕ × ℕ)
    (a b c d e f : ℝ)
    (h0 : c0.get? 0 = some a) (h1 : c0.get? 1 = some b)
    (h2 : c0.get? 2 = some c) (h3 : T.get? 0 = some d)
    (h4 : T.get? 1 = some e) (h5 : T.get? 2 = some f)
    (hlen : ca.length = tc.length) :
    leastsqfunc p tc ca c0 T s =
      some (List.zipWith (fun u v => u - v) ca
        ((tc.take n1).map (fun t => func t a d (p 0) (p 1) (p 2) (p 3))
          ++ ((tc.drop n1).take (n2 - n1)).map
              (fun t => func t b e (p 0) (p 1) (p 2) (p 3))
          ++ (tc.drop n2).map
              (fun t => func t c f (p 0) (p 1) (p 2) (p 3)))) := by
  unfold leastsqfunc
  rw [h0, h1, h2, h3, h4, h5]
  simp only [Option.some_bind]
  split
  · rfl
  · rename_i hcond
    exfalso
    apply hcond
    simp only [List.length_append, List.length_map, List.length_take,
      List.length_drop, hlen, n1, n2]
    omega

/-- C9: the residual assembler never reads the slice-boundary tuple passed
as its fifth argument, and whenever the `C_0` and `T` tuples have at least
three entries and the combined arrays agree in length it returns the
residual vector partitioned at the fixed boundaries given by the module
constants `n1 = 10` and `n2 = 20`, independent of how the experiment data
was actually grouped. -/
theorem leastsqfunc_fixed_partition (p : Fin 4 → ℝ) (tc ca c0 T : List ℝ)
    (s s2 : ℕ × ℕ) (a b c d e f : ℝ)
    (h0 : c0.get? 0 = some a) (h1 : c0.get? 1 = some b)
    (h2 : c0.get? 2 = some c) (h3 : T.get? 0 = some d)
    (h4 : T.get? 1 = some e) (h5 : T.get? 2 = some f)
    (hlen : ca.length = tc.length) :
    leastsqfunc p tc ca c0 T s = leastsqfunc p tc ca c0 T s2 ∧
    leastsqfunc p tc ca c0 T s =
      some (List.zipWith (fun u v => u - v) ca
        ((tc.take n1).map (fun t => func t a d (p 0) (p 1) (p 2) (p 3))
          ++ ((tc.drop n1).take (n2 - n1)).map
              (fun t => func t b e (p 0) (p 1) (p 2) (p 3))
          ++ (tc.drop n2).map
              (fun t => func t c f (p 0) (p 1) (p 2) (p 3)))) :=
  ⟨rfl, leastsqfunc_eval p tc ca c0 T s a b c d e f h0 h1 h2 h3 h4 h5 hlen⟩

/-- Witness for C9 at empty data arrays and zero tuples, with two different
slice-boundary tuples. -/
theorem leastsqfunc_fixed_partition_witness :
    leastsqfunc (fun _ => 0) [] [] [0, 0, 0] [0, 0, 0] (0, 0) =
      leastsqfunc (fun _ => 0) [] [] [0, 0, 0] [0, 0, 0] (5, 7) ∧
    leastsqfunc (fun _ => 0) [] [] [0, 0, 0] [0, 0, 0] (0, 0) =
      some (List.zipWith (fun u v => u - v) ([] : List ℝ)
        ((List.take n1 ([] : List ℝ)).map (fun t => func t 0 0 0 0 0 0)
          ++ ((List.drop n1 ([] : List ℝ)).take (n2 - n1)).map
              (fun t => func t 0 0 0 0 0 0)
          ++ (List.drop n2 ([] : List ℝ)).map
              (fun t => func t 0 0 0 0 0 0))) :=
  leastsqfunc_fixed_partition (fun _ => 0) [] [] [0, 0, 0] [0, 0, 0]
    (0, 0) (5, 7) 0 0 0 0 0 0 rfl rfl rfl rfl rfl rfl rfl

/-- Amended C3: for exactly three experiments with exactly ten observations
each, the assembled residual vector is `observed - predicted` for each
observation, experiments concatenated in input order, observation order
preserved, and its length is the sum of the observation counts. -/
theorem residuals_three_by_ten (params : Fin 4 → ℝ)
    (a1 a2 a3 : ExperimentData)
    (h1t : a1.times.length = 10) (h1c : a1.cA.length = 10)
    (h2t : a2.times.length = 10) (h2c : a2.cA.length = 10)
    (h3t : a3.times.length = 10) (h3c : a3.cA.length = 10) :
    residualsCode params [a1, a2, a3] =
      some (residualsSpec params [a1, a2, a3]) ∧
    (residualsSpec params [a1, a2, a3]).length =
      a1.cA.length + a2.cA.length + a3.cA.length := by
  constructor
  · have htc : (List.map ExperimentData.times [a1, a2, a3]).flatten =
        a1.times ++ (a2.times ++ a3.times) := by
      simp
    have hca : (List.map ExperimentData.cA [a1, a2, a3]).flatten =
        a1.cA ++ (a2.cA ++ a3.cA) := by
      simp
    have hlen : (a1.cA ++ (a2.cA ++ a3.cA)).length =
        (a1.times ++ (a2.times ++ a3.times)).length := by
      simp [h1t, h1c, h2t, h2c, h3t, h3c]
    unfold residualsCode
    rw [htc, hca]
    rw [leastsqfunc_eval params (a1.times ++ (a2.times ++ a3.times))
      (a1.cA ++ (a2.cA ++ a3.cA))
      (List.map ExperimentData.cA_start [a1, a2, a3])
      (List.map ExperimentData.T [a1, a2, a3]) (n1, n1 + n2)
      a1.cA_start a2.cA_start a3.cA_start a1.T a2.T a3.T
      rfl rfl rfl rfl rfl rfl hlen]
    congr 1
    rw [show (n1 : ℕ) = 10 from rfl, show (n2 : ℕ) = 20 from rfl,
      show (20 - 10 : ℕ) = 10 from rfl]
    rw [List.take_left' h1t, List.drop_left' h1t, List.take_left' h2t]
    rw [show (20 : ℕ) = 10 + 10 from rfl, ← List.drop_drop,
      List.drop_left' h1t, List.drop_left' h2t]
    rw [List.append_assoc]
    rw [List.zipWith_append _ _ _ _ _ (by simp [h1c, h1t])]
    rw [List.zipWith_append _ _ _ _ _ (by simp [h2c, h2t])]
    rw [List.zipWith_map_right, List.zipWith_map_right, List.zipWith_map_right]
    simp only [residualsSpec, List.map_cons, List.map_nil, List.flatten_cons,
      List.flatten_nil, List.append_nil]
  · simp only [residualsSpec, List.map_cons, List.map_nil, List.flatten_cons,
      List.flatten_nil, List.append_nil, List.length_append,
      List.length_zipWith, h1t, h1c, h2t, h2c, h3t, h3c]
    omega

/-- Witness for the amended C3 at the three literal experiments of the
notebook. -/
theorem residuals_three_by_ten_witness :
    residualsCode (fun _ => 0) [exp1, exp2, exp3] =
      some (residualsSpec (fun _ => 0) [exp1, exp2, exp3]) ∧
    (residualsSpec (fun _ => 0) [exp1, exp2, exp3]).length =
      exp1.cA.length + exp2.cA.length + exp3.cA.length :=
  residuals_three_by_ten (fun _ => 0) exp1 exp2 exp3 rfl rfl rfl rfl rfl rfl

/-- Counterexample for C3: on a single well-formed experiment with two
observations the assembler does not return a residual vector at all (the
Python code raises an index error reading `C_0[1]`), refuting the claim for
arbitrary non-empty experiment sequences. -/
theorem residuals_single_experiment_fails :
    ¬ ∃ v : List ℝ, residualsCode (fun _ => 0) [expSingle] = some v ∧
      v.length = expSingle.cA.length := by
  rintro ⟨v, hv, h⟩
  have hnone : residualsCode (fun _ => 0) [expSingle] = none := rfl
  rw [hnone] at hv
  exact Option.noConfusion hv

end Regression
